import Mathlib

/-!
Verification development for the FDMS driver-monitoring repository.

The development shallowly embeds the two core subsystems of the repository:

* the facial-drowsiness feature pipeline of `facial_expression.py`
  (geometric feature extraction, per-subject calibration, temporal
  smoothing and window building, and the slicing step of
  `get_classification`), together with the sequence-classifier adapter
  `VideoClassifier.classify` of `video_classifier.py`;
* the fuzzy risk engine of `fuzzy.py` (rule loading, construction, and
  the category-selection step of `FuzzyInference.__call__`).

Numeric code is embedded over `ℚ` where the source only uses field
operations and comparisons, and over `ℝ` where the source takes square
roots (`distance`) or where the external fuzzy library integrates over
the output universe.  Frames are embedded at the level of the
per-frame landmark-extraction outcome: `none` stands for a frame in
which the external face-landmark detector found no face, and
`some v` stands for a frame whose extracted raw feature vector is `v`
(the code's `run_face_mp` returns the tuple `(-1000, -1000, -1000, -1000)`
in the first case).
-/

namespace FDMS

/-! ## Sequence Classifier Adapter: `VideoClassifier.classify` (video_classifier.py, lines 104-128)

A `features` matrix of shape `(num_frames, num_features)` is embedded
as a `List (Fin w → ℚ)` of rows; the feature width `w` is carried by
the row type, exactly as a 2-D numpy array carries its second
dimension even when it has zero rows. -/

/-- An all-zero feature row, as produced by `np.pad(..., mode='constant')`. -/
def zeroRow (w : ℕ) : Fin w → ℚ := fun _ => 0

/-- Embeds `VideoClassifier.classify` up to the external LSTM call: if the
matrix has fewer than 200 rows it is right-padded with all-zero rows to
200 (`np.pad(features, ((0, pad_length), (0, 0)), mode='constant')`),
if it has more than 200 rows it is truncated to the first 200
(`features[:200]`), otherwise it is passed through unchanged.  The
batch-dimension expansion and the LSTM session run are external. -/
def classify {w : ℕ} (features : List (Fin w → ℚ)) : List (Fin w → ℚ) :=
  if features.length < 200 then
    features ++ List.replicate (200 - features.length) (zeroRow w)
  else if 200 < features.length then
    features.take 200
  else
    features

/-! ## Geometric sentinel and the smoothing pipeline (facial_expression.py)

`run_face_mp` returns `(-1000, -1000, -1000, -1000)` when the detector
reports no face (lines 80-84).  A raw per-frame feature vector
`(ear, mar, puc, moe)` is a `Feat`; a frame outcome is an
`Option Feat` (`none` = no face). -/

/-- The reserved no-face constant `-1000` of `run_face_mp`. -/
def sentinel : ℚ := -1000

/-- A raw or smoothed feature vector `(ear, mar, puc, moe)`. -/
abbrev Feat := ℚ × ℚ × ℚ × ℚ

/-- The all-sentinel feature vector `(-1000, -1000, -1000, -1000)`. -/
def sentFeat : Feat := (sentinel, sentinel, sentinel, sentinel)

/-- The per-frame outcome of `run_face_mp`: the returned 4-tuple, with
`none` embedded as the all-sentinel tuple. -/
def extractOutcome (f : Option Feat) : Feat := f.getD sentFeat

/-! ### Calibration: `FacialDrowsiness.calibrate` (lines 88-107)

The loop keeps exactly those frames whose extracted `ear` differs from
`-1000`, collects the four per-feature lists, and returns
`[mean, std]` for each, where numpy's `mean`/`std` of an empty array
is NaN (embedded as `none`); `np.std` is the population standard
deviation, the square root of the mean squared deviation. -/

/-- The feature vectors retained by the calibration loop: frames whose
extracted `ear` component is not the sentinel (line 96, `if ear != -1000`). -/
def validFeats (frames : List (Option Feat)) : List Feat :=
  (frames.map extractOutcome).filter (fun v => v.1 ≠ sentinel)

/-- Embeds `np.mean` of a 1-D array: `none` (NaN) on an empty array, otherwise the
arithmetic mean. -/
def npMean (l : List ℚ) : Option ℚ :=
  if l = [] then none else some (l.sum / l.length)

/-- The population variance underlying `np.std`: `none` (NaN) on an empty
array, otherwise the mean squared deviation from the mean. -/
def npVar (l : List ℚ) : Option ℚ :=
  if l = [] then none
  else some (((l.map (fun x => (x - l.sum / l.length) ^ 2)).sum) / l.length)

/-- Embeds `np.std` of a 1-D array: the square root of the population variance,
`none` (NaN) on an empty array. -/
noncomputable def npStd (l : List ℚ) : Option ℝ :=
  (npVar l).map (fun v => Real.sqrt (v : ℝ))

/-- The `[mean, std]` pair computed by `calibrate` for one feature list. -/
noncomputable def calStats (l : List ℚ) : Option ℚ × Option ℝ :=
  (npMean l, npStd l)

/-- Embeds `FacialDrowsiness.calibrate`: per-feature `[mean, std]` pairs over
the feature vectors of the frames that produced a valid (non-sentinel)
extraction, in the order `ears, mars, pucs, moes`. -/
noncomputable def calibrate (frames : List (Option Feat)) :
    (Option ℚ × Option ℝ) × (Option ℚ × Option ℝ) ×
    (Option ℚ × Option ℝ) × (Option ℚ × Option ℝ) :=
  let vs := validFeats frames
  (calStats (vs.map (fun v => v.1)),
   calStats (vs.map (fun v => v.2.1)),
   calStats (vs.map (fun v => v.2.2.1)),
   calStats (vs.map (fun v => v.2.2.2)))

/-- The all-NaN stats returned by `calibrate` when no frame was valid. -/
noncomputable def nanStats :
    (Option ℚ × Option ℝ) × (Option ℚ × Option ℝ) ×
    (Option ℚ × Option ℝ) × (Option ℚ × Option ℝ) :=
  ((none, none), (none, none), (none, none), (none, none))

/-! ### Temporal smoothing and window building: `FacialDrowsiness.infer` (lines 121-152) -/

/-- The four `(mean, std)` normalization pairs `ears_norm, mars_norm,
pucs_norm, moes_norm` passed to `infer`. -/
abbrev Norms := (ℚ × ℚ) × (ℚ × ℚ) × (ℚ × ℚ) × (ℚ × ℚ)

/-- Per-feature normalization `(raw - mean) / std` (lines 131-134). -/
def normalize (ns : Norms) (v : Feat) : Feat :=
  ((v.1 - ns.1.1) / ns.1.2,
   (v.2.1 - ns.2.1.1) / ns.2.1.2,
   (v.2.2.1 - ns.2.2.1.1) / ns.2.2.1.2,
   (v.2.2.2 - ns.2.2.2.1) / ns.2.2.2.2)

/-- The fixed exponential-smoothing decay factor (line 126). -/
def decay : ℚ := 9 / 10

/-- One exponential-smoothing update
`main = main*decay + (1-decay)*feature` (lines 141-144). -/
def blend (s x : ℚ) : ℚ := s * decay + (1 - decay) * x

/-- One iteration of the `infer` frame loop, acting on the smoothed state
`(ear_main, mar_main, puc_main, moe_main)`:

* a no-face frame resets the whole state to the sentinel (lines 145-149);
* a valid frame is normalized, then either replaces a sentinel state
  directly (`if ear_main == -1000`, lines 135-139) or is blended into the
  state with the decay factor (lines 140-144). -/
def inferStep (ns : Norms) (st : Feat) (frame : Option Feat) : Feat :=
  match frame with
  | none => sentFeat
  | some raw =>
    let n := normalize ns raw
    if st.1 = sentinel then n
    else (blend st.1 n.1, blend st.2.1 n.2.1,
          blend st.2.2.1 n.2.2.1, blend st.2.2.2 n.2.2.2)

/-- The initial smoothed state of a window-building pass:
`ear_main = mar_main = puc_main = moe_main = 0` (lines 122-125). -/
def inferStart : Feat := (0, 0, 0, 0)

/-- The window built from a given starting state: one smoothed snapshot is
appended per frame (line 150, `input_data.append(...)`). -/
def inferWindowFrom (ns : Norms) (st : Feat) : List (Option Feat) → List Feat
  | [] => []
  | f :: fs =>
    let st2 := inferStep ns st f
    st2 :: inferWindowFrom ns st2 fs

/-- The Feature Window built by one `infer` call: the per-frame smoothed
snapshots, starting from the all-zero state. -/
def inferWindow (ns : Norms) (frames : List (Option Feat)) : List Feat :=
  inferWindowFrom ns inferStart frames

/-- The smoothed state held just before frame `i` is processed. -/
def stateAt (ns : Norms) (frames : List (Option Feat)) (i : ℕ) : Feat :=
  (frames.take i).foldl (inferStep ns) inferStart

/-! ### Window slicing: `FacialDrowsiness.get_classification` (lines 109-119)

`model_input` stacks the six list slices `input_data[:5]`,
`input_data[3:8]`, `input_data[6:11]`, `input_data[9:14]`,
`input_data[12:17]`, `input_data[15:]`. -/

/-- The six overlapping sub-windows assembled by `get_classification`. -/
def getClassificationSlices {α : Type} (l : List α) : List (List α) :=
  [l.take 5, (l.drop 3).take 5, (l.drop 6).take 5,
   (l.drop 9).take 5, (l.drop 12).take 5, l.drop 15]

/-! ## Geometric Feature Extractor (facial_expression.py, lines 17-57)

Landmark positions are 3-D points; `FacialDrowsiness.distance` uses
only the first two coordinates (`p1[:2] - p2[:2]`).  The landmark
array is embedded as a function from indices to points. -/

/-- A landmark position `[x, y, z]`. -/
abbrev Pt := ℝ × ℝ × ℝ

/-- The per-frame landmark array, index-addressable. -/
abbrev Landmarks := ℕ → Pt

/-- Embeds `FacialDrowsiness.distance`: Euclidean distance of the first two
coordinates (line 23). -/
noncomputable def distance (p q : Pt) : ℝ :=
  Real.sqrt ((p.1 - q.1) ^ 2 + (p.2.1 - q.2.1) ^ 2)

/-- The four landmark-index pairs of one eye (or of the mouth): one
horizontal pair followed by three vertical pairs. -/
abbrev IdxPairs := Fin 4 → ℕ × ℕ

/-- The index pairs `self.right_eye` (line 17). -/
def right_eye : IdxPairs := ![(33, 133), (160, 144), (159, 145), (158, 153)]

/-- The index pairs `self.left_eye` (line 18). -/
def left_eye : IdxPairs := ![(263, 362), (387, 373), (386, 374), (385, 380)]

/-- The index pairs `self.mouth` (line 19). -/
def mouth : IdxPairs := ![(61, 291), (39, 181), (0, 17), (269, 405)]

/-- Embeds `FacialDrowsiness.eye_aspect_ratio` (lines 25-30): the average of three
vertical distances divided by the horizontal distance. -/
noncomputable def eyeAspect (l : Landmarks) (eye : IdxPairs) : ℝ :=
  (distance (l (eye 1).1) (l (eye 1).2) +
   distance (l (eye 2).1) (l (eye 2).2) +
   distance (l (eye 3).1) (l (eye 3).2)) /
  (3 * distance (l (eye 0).1) (l (eye 0).2))

/-- Embeds `FacialDrowsiness.eye_feature` (lines 32-34): the average of the
left-eye and right-eye aspect ratios. -/
noncomputable def eye_feature (l : Landmarks) : ℝ :=
  (eyeAspect l left_eye + eyeAspect l right_eye) / 2

/-- Embeds `FacialDrowsiness.mouth_feature` (lines 36-41): the same shape of
computation over the mouth index pairs. -/
noncomputable def mouth_feature (l : Landmarks) : ℝ :=
  (distance (l (mouth 1).1) (l (mouth 1).2) +
   distance (l (mouth 2).1) (l (mouth 2).2) +
   distance (l (mouth 3).1) (l (mouth 3).2)) /
  (3 * distance (l (mouth 0).1) (l (mouth 0).2))

/-- The 8-segment polygon perimeter of `FacialDrowsiness.pupil_circularity`
(lines 44-51), walking corner and midpoint landmarks of one eye. -/
noncomputable def eyePerimeter8 (l : Landmarks) (eye : IdxPairs) : ℝ :=
  distance (l (eye 0).1) (l (eye 1).1) +
  distance (l (eye 1).1) (l (eye 2).1) +
  distance (l (eye 2).1) (l (eye 3).1) +
  distance (l (eye 3).1) (l (eye 0).2) +
  distance (l (eye 0).2) (l (eye 3).2) +
  distance (l (eye 3).2) (l (eye 2).2) +
  distance (l (eye 2).2) (l (eye 1).2) +
  distance (l (eye 1).2) (l (eye 0).1)

/-- Embeds `FacialDrowsiness.pupil_circularity` (lines 43-53):
`(4*pi*area) / perimeter**2` with
`area = pi * ((distance(landmarks[eye[1][0]], landmarks[eye[3][1]]) * 0.5) ** 2)`. -/
noncomputable def pupil_circularity (l : Landmarks) (eye : IdxPairs) : ℝ :=
  (4 * Real.pi * (Real.pi * (distance (l (eye 1).1) (l (eye 3).2) * (1 / 2)) ^ 2)) /
  (eyePerimeter8 l eye) ^ 2

/-- Embeds `FacialDrowsiness.pupil_feature` (lines 55-57): the average of the
left-eye and right-eye circularities. -/
noncomputable def pupil_feature (l : Landmarks) : ℝ :=
  (pupil_circularity l left_eye + pupil_circularity l right_eye) / 2

/-- The vertical eye-opening distance named by the specification: the
distance between the landmarks `eye[1][0]` and `eye[3][1]` whose half is
the radius in the code's `area` (line 52). -/
noncomputable def verticalEyeOpening (l : Landmarks) (eye : IdxPairs) : ℝ :=
  distance (l (eye 1).1) (l (eye 3).2)

/-- The specification's area term: `pi * (half the vertical eye-opening
distance)^2`. -/
noncomputable def eyeAreaSpec (l : Landmarks) (eye : IdxPairs) : ℝ :=
  Real.pi * (verticalEyeOpening l eye / 2) ^ 2

/-! ## Fuzzy Risk Engine (fuzzy.py)

### Rule loading: `FuzzyInference.load_rules_from_json_file` (lines 104-135)

A parsed rule record is an ordered JSON object, embedded as an
association list.  The rule-specification source is `none` when the
file cannot be opened (the code catches `IOError`, prints an error and
returns `[]`), and `some rulesJson` when it parses to a list of
records. -/

/-- One parsed rule record: an ordered flat JSON object. -/
abbrev RuleDict := List (String × String)

/-- Embeds `rule_dict.get('result')` as interpolated into the f-string on
line 131: the stored value, or Python's `str(None)` when the key is
absent. -/
def pyGetResult (d : RuleDict) : String :=
  match d.lookup "result" with
  | some v => v
  | none => "None"

/-- The condition fragments collected on lines 128-130: every key except
`result`, rendered as `key IS value`. -/
def ruleConditions (d : RuleDict) : List String :=
  (d.filter (fun kv => kv.1 ≠ "result")).map (fun kv => kv.1 ++ " IS " ++ kv.2)

/-- The rule string assembled on lines 131-132:
`IF (<c1>) AND (<c2>) ... THEN (result IS <result>)`. -/
def ruleString (d : RuleDict) : String :=
  "IF (" ++ String.intercalate ") AND (" (ruleConditions d) ++ ") " ++
  "THEN (result IS " ++ pyGetResult d ++ ")"

/-- Embeds `load_rules_from_json_file`: an unreadable source (`IOError`)
yields the empty rule list after printing an error message (lines
119-124); otherwise one rule string is appended per record (lines
125-135). -/
def load_rules_from_json_file (source : Option (List RuleDict)) : List String :=
  match source with
  | none => []
  | some rulesJson => rulesJson.map ruleString

/-- The constructed engine state: `fuzzy_init` registers the fixed
linguistic variables and hands the rule strings to the external fuzzy
library's `add_rules`; the embedding records the rule base handed over. -/
structure FuzzyEngine where
  rules : List String
  deriving DecidableEq, Repr

/-- Embeds `FuzzyInference.fuzzy_init` (lines 47-102), at the level of the rule
base it installs. -/
def fuzzy_init (rules : List String) : FuzzyEngine := ⟨rules⟩

/-- Embeds `FuzzyInference.__init__` (lines 33-45).  The `Except` result records
where a Python exception could escape construction; on the embedded
paths none is raised, since the only guarded operation is the file
read whose `IOError` is caught inside `load_rules_from_json_file`. -/
def fuzzyInferenceNew (source : Option (List RuleDict)) :
    Except String FuzzyEngine :=
  Except.ok (fuzzy_init (load_rules_from_json_file source))

/-! ### The result variable and category selection: `FuzzyInference.__call__`
(lines 137-159)

The output variable is `AutoTriangle(5, terms=['very_low', 'low',
'medium', 'high', 'very_high'], universe_of_discourse=[0, 5])`
(line 89): five triangular membership functions with peaks evenly
spaced over `[0, 5]`, i.e. at `5*i/4`, each reaching zero at the
neighbouring peaks. -/

/-- A triangular membership function with peak `p` and half-width `w`. -/
def triMF {α : Type} [LinearOrderedField α] (p w x : α) : α :=
  max 0 (1 - |x - p| / w)

/-- The membership function of result term `i` of the `AutoTriangle`
output partition. -/
def resultMF {α : Type} [LinearOrderedField α] (i : Fin 5) (x : α) : α :=
  triMF (((i : ℕ) : α) * (5 / 4)) (5 / 4) x

/-- The five result-term names, in the construction order of line 89 —
the insertion order of every dict keyed by these terms. -/
def resultTermNames : List String :=
  ["very_low", "low", "medium", "high", "very_high"]

/-- Embeds `self.result.get_values(v)` (line 156): the membership value of each
result term at the crisp value `v`, keyed by term name in construction
order. -/
def resultGetValues {α : Type} [LinearOrderedField α] (v : α) :
    List (String × α) :=
  [("very_low", resultMF 0 v), ("low", resultMF 1 v),
   ("medium", resultMF 2 v), ("high", resultMF 3 v),
   ("very_high", resultMF 4 v)]

/-- Python's `max(d, key=d.get)` over an insertion-ordered dict: the first
key whose value is maximal (a later entry replaces the current best only
when strictly greater). -/
def pyArgmax {α : Type} [LinearOrder α] : List (String × α) → Option String
  | [] => none
  | x :: xs => some ((xs.foldl (fun b p => if b.2 < p.2 then p else b) x).1)

/-- The category-selection tail of `FuzzyInference.__call__` (lines
156-159): given the crisp value returned by `self.fs.inference()`, look
up the five term memberships at it and return the first term of maximal
membership. -/
noncomputable def fuzzyCall (crisp : ℝ) : Option String :=
  pyArgmax (resultGetValues crisp)

/-!
### Model of the external library's inference step

`self.fs.inference()` is the external simpful library's
`FuzzySystem.inference`: Mamdani inference returning, for the output
variable `result`, a crisp value obtained by centre-of-gravity
(centroid) defuzzification of the aggregated output membership
function — the library's documented behaviour for rule bases in the
`IF ... IS ... THEN ...` form built here.  Following the
specification's description of rule evaluation ("aggregate each rule's
contribution into its consequent result-term's activation via the
maximum operator"), the whole effect of the rule base and of the crisp
inputs is abstracted into the vector `a : Fin 5 → ℝ` of aggregated
activation degrees of the five result terms (the rule-specification
file `static/fuzzy rules/rules.json` is not part of the sources). -/

/-- The aggregated output membership function of Mamdani inference: each
result term's membership clipped at the term's aggregated activation,
combined by pointwise maximum. -/
noncomputable def aggregatedResultMF (a : Fin 5 → ℝ) (x : ℝ) : ℝ :=
  max (min (a 0) (resultMF 0 x))
    (max (min (a 1) (resultMF 1 x))
      (max (min (a 2) (resultMF 2 x))
        (max (min (a 3) (resultMF 3 x))
          (min (a 4) (resultMF 4 x)))))

/-- Centre-of-gravity defuzzification of the aggregated output membership
function over the output universe `[0, 5]`: the crisp value returned in
`r['result']` by the library's Mamdani inference. -/
noncomputable def mamdaniCrispResult (a : Fin 5 → ℝ) : ℝ :=
  (∫ x in (0:ℝ)..5, x * aggregatedResultMF a x) /
  (∫ x in (0:ℝ)..5, aggregatedResultMF a x)

/-- The category returned by `FuzzyInference.__call__`, as a function of
the aggregated result-term activations: the library's crisp centroid
value fed through the selection tail of lines 156-159. -/
noncomputable def fuzzyEngineCategory (a : Fin 5 → ℝ) : Option String :=
  fuzzyCall (mamdaniCrispResult a)

/-- The behaviour asserted by the specification: arg-max defuzzification
directly over the aggregated activation degrees of the five result
terms, ties broken by the fixed enumeration order. -/
noncomputable def argmaxActivationCategory (a : Fin 5 → ℝ) : Option String :=
  pyArgmax [("very_low", a 0), ("low", a 1), ("medium", a 2),
            ("high", a 3), ("very_high", a 4)]

/-- A concrete profile of aggregated activations: the two extreme result
terms fully activated, the middle three not activated at all. -/
noncomputable def twoPeakActivations : Fin 5 → ℝ := ![1, 0, 0, 0, 1]

/-! ## Theorems -/

/-- C2: for every feature matrix handed to `VideoClassifier.classify` with
target length 200 (the fixed target of the adapter), the output matrix has
exactly 200 rows and the original feature width (carried by the row type):
every input row with index below both the input length and 200 survives
unchanged, and when the input is shorter than 200 the remaining rows are
all-zero. -/
theorem classify_pads_and_truncates {w : ℕ} (features : List (Fin w → ℚ)) :
    (classify features).length = 200 ∧
    (∀ i : ℕ, i < features.length → i < 200 →
      (classify features)[i]? = features[i]?) ∧
    (∀ i : ℕ, features.length ≤ i → i < 200 →
      (classify features)[i]? = some (zeroRow w)) := by
  unfold classify
  by_cases h : features.length < 200
  · rw [if_pos h]
    refine ⟨by rw [List.length_append, List.length_replicate]; omega, ?_, ?_⟩
    · intro i hi _
      exact List.getElem?_append_left hi
    · intro i hi hi200
      rw [List.getElem?_append_right hi, List.getElem?_replicate_of_lt (by omega)]
  · rw [if_neg h]
    by_cases h2 : 200 < features.length
    · rw [if_pos h2]
      refine ⟨by rw [List.length_take]; omega, ?_, ?_⟩
      · intro i _ hi200
        rw [List.getElem?_take, if_pos hi200]
      · intro i hi hi200
        omega
    · rw [if_neg h2]
      exact ⟨by omega, fun i _ _ => rfl, fun i hi hi200 => by omega⟩

/-- Witness for `classify_pads_and_truncates` at a one-row input of
width 4: row 0 survives, row 7 is all-zero. -/
theorem classify_pads_and_truncates_witness :
    (classify ([fun _ => 1] : List (Fin 4 → ℚ)))[0]? = some (fun _ => 1) ∧
    (classify ([fun _ => 1] : List (Fin 4 → ℚ)))[7]? = some (zeroRow 4) := by
  have h := classify_pads_and_truncates ([fun _ => 1] : List (Fin 4 → ℚ))
  exact ⟨(h.2.1 0 (by norm_num) (by norm_num)).trans rfl,
         h.2.2 7 (by norm_num) (by norm_num)⟩

/-- C9 counterexample: on the empty feature window the six sub-windows of
`get_classification` all have the same length (namely 0), although the
window does not contain 20 snapshots — so a non-20-length window does not
always make the stacked model input ragged. -/
theorem getClassificationSlices_empty_uniform :
    (getClassificationSlices ([] : List ℚ)).map List.length =
      List.replicate 6 0 ∧
    ([] : List ℚ).length ≠ 20 := by
  exact ⟨rfl, by norm_num⟩

/-- C9 (amended): the six sub-windows cut by `get_classification` at start
offsets 0, 3, 6, 9, 12, 15 all have length 5 exactly when the input window
has 20 snapshots; for every other nonzero window length the first and last
sub-windows already differ in length (the stack is ragged), while the empty
window yields six equal empty sub-windows. -/
theorem getClassificationSlices_uniform_iff (l : List ℚ) :
    ((getClassificationSlices l).map List.length = List.replicate 6 5 ↔
      l.length = 20) ∧
    (l.length ≠ 20 → l.length ≠ 0 →
      (l.take 5).length ≠ (l.drop 15).length) := by
  constructor
  · simp only [getClassificationSlices, List.map_cons, List.map_nil,
      List.length_take, List.length_drop, List.replicate, List.cons.injEq,
      and_true]
    omega
  · intro h20 h0
    simp only [List.length_take, List.length_drop]
    omega

/-- Witness for `getClassificationSlices_uniform_iff`: a 20-snapshot window
yields six length-5 sub-windows, and a 3-snapshot window yields a first and
last sub-window of different lengths. -/
theorem getClassificationSlices_uniform_iff_witness :
    (getClassificationSlices (List.replicate 20 (0:ℚ))).map List.length =
      List.replicate 6 5 ∧
    ((List.replicate 3 (0:ℚ)).take 5).length ≠
      ((List.replicate 3 (0:ℚ)).drop 15).length := by
  exact ⟨(getClassificationSlices_uniform_iff (List.replicate 20 0)).1.mpr
          (by norm_num),
         (getClassificationSlices_uniform_iff (List.replicate 3 0)).2
          (by norm_num) (by norm_num)⟩

/-- C6: one exponential-smoothing update with decay 0.9 yields a value
between the previous smoothed value and the new normalized input — equal
to both when they coincide, strictly between them otherwise. -/
theorem blend_between (s x : ℚ) :
    (s = x → blend s x = s) ∧
    (s < x → s < blend s x ∧ blend s x < x) ∧
    (x < s → x < blend s x ∧ blend s x < s) := by
  unfold blend decay
  refine ⟨fun h => by rw [h]; ring, fun h => ⟨by linarith, by linarith⟩,
          fun h => ⟨by linarith, by linarith⟩⟩

/-- Witness for `blend_between` at `s = 0`, `x = 1`. -/
theorem blend_between_witness : (0:ℚ) < blend 0 1 ∧ blend 0 1 < 1 :=
  (blend_between 0 1).2.1 (by norm_num)

/-- C10: a window-building pass starts from the all-zero smoothed state,
which is not the sentinel state; consequently a window whose first frame is
valid blends that frame's normalized feature vector against zero, so its
first smoothed snapshot equals 0.1 times the normalized vector. -/
theorem inferStart_zero_blends_first_frame (ns : Norms) (raw : Feat)
    (fs : List (Option Feat)) :
    inferStart = ((0:ℚ), (0:ℚ), (0:ℚ), (0:ℚ)) ∧
    inferStart ≠ sentFeat ∧
    (inferWindow ns (some raw :: fs)).head? =
      some ((1/10) * (normalize ns raw).1,
            (1/10) * (normalize ns raw).2.1,
            (1/10) * (normalize ns raw).2.2.1,
            (1/10) * (normalize ns raw).2.2.2) := by
  refine ⟨rfl, by decide, ?_⟩
  simp only [inferWindow, inferWindowFrom, inferStep, inferStart, List.head?]
  rw [if_neg (by norm_num [sentinel])]
  simp only [blend, decay, Option.some.injEq, Prod.mk.injEq]
  refine ⟨by ring, by ring, by ring, by ring⟩

/-- Indexing the window built by the `infer` loop: the snapshot at
position `i` is the result of one `inferStep` applied to the state
accumulated over the first `i` frames. -/
theorem inferWindowFrom_getElem (ns : Norms) :
    ∀ (frames : List (Option Feat)) (st : Feat) (i : ℕ) (f : Option Feat),
      frames[i]? = some f →
      (inferWindowFrom ns st frames)[i]? =
        some (inferStep ns ((frames.take i).foldl (inferStep ns) st) f) := by
  intro frames
  induction frames with
  | nil => intro st i f h; simp at h
  | cons g gs ih =>
    intro st i f h
    cases i with
    | zero =>
      simp only [List.getElem?_cons_zero, Option.some.injEq] at h
      subst h
      simp only [inferWindowFrom, List.getElem?_cons_zero, List.take_zero,
        List.foldl_nil]
    | succ j =>
      simp only [List.getElem?_cons_succ] at h
      simp only [inferWindowFrom, List.getElem?_cons_succ,
        List.take_succ_cons, List.foldl_cons]
      exact ih (inferStep ns st g) j f h

/-- C5: in one window-building pass of `FacialDrowsiness.infer`, every
frame whose extraction yields the no-face sentinel resets the whole
smoothed state to the all-sentinel vector and appends that snapshot; and
every valid frame processed while the current smoothed state is the
sentinel state has its normalized feature vector written to the window
directly, with no blending. -/
theorem infer_sentinel_reset_and_direct_set (ns : Norms)
    (frames : List (Option Feat)) (i : ℕ) :
    (frames[i]? = some none → (inferWindow ns frames)[i]? = some sentFeat) ∧
    (∀ raw : Feat, frames[i]? = some (some raw) →
      (stateAt ns frames i).1 = sentinel →
      (inferWindow ns frames)[i]? = some (normalize ns raw)) := by
  constructor
  · intro h
    rw [inferWindow, inferWindowFrom_getElem ns frames inferStart i none h]
    rfl
  · intro raw h hst
    rw [inferWindow, inferWindowFrom_getElem ns frames inferStart i (some raw) h]
    unfold stateAt at hst
    simp only [inferStep]
    rw [if_pos hst]

/-- Witness for `infer_sentinel_reset_and_direct_set` on the two-frame
window `[no-face, valid]` with unit normalization: the first snapshot is
the all-sentinel vector, and the second is the raw vector written
directly. -/
theorem infer_sentinel_reset_witness :
    (inferWindow ((0,1),(0,1),(0,1),(0,1)) [none, some (1,2,3,4)])[0]? =
      some sentFeat ∧
    (inferWindow ((0,1),(0,1),(0,1),(0,1)) [none, some (1,2,3,4)])[1]? =
      some (normalize ((0,1),(0,1),(0,1),(0,1)) (1,2,3,4)) := by
  refine ⟨(infer_sentinel_reset_and_direct_set ((0,1),(0,1),(0,1),(0,1))
            [none, some (1,2,3,4)] 0).1 rfl,
          (infer_sentinel_reset_and_direct_set ((0,1),(0,1),(0,1),(0,1))
            [none, some (1,2,3,4)] 1).2 (1,2,3,4) rfl (by decide)⟩

/-- The feature vectors retained by the calibration loop are determined by
the subsequence of face-bearing frames: no-face frames contribute
nothing. -/
theorem validFeats_eq_filter_isSome (l : List (Option Feat)) :
    validFeats l =
      ((l.filter (fun f => f.isSome)).map extractOutcome).filter
        (fun v => v.1 ≠ sentinel) := by
  induction l with
  | nil => rfl
  | cons f t ih =>
    cases f with
    | none =>
      rw [validFeats, List.map_cons, List.filter_cons_of_neg (by decide),
        List.filter_cons_of_neg (by decide)]
      exact ih
    | some v =>
      have hrw : extractOutcome (some v) = v := rfl
      have hpos : (fun f : Option Feat => f.isSome) (some v) = true := rfl
      rw [validFeats, List.map_cons, hrw, List.filter_cons,
        List.filter_cons_of_pos hpos, List.map_cons, hrw,
        List.filter_cons]
      by_cases hv : v.1 = sentinel
      · rw [if_neg (by simp [hv]), if_neg (by simp [hv])]
        exact ih
      · rw [if_pos (by simp [hv]), if_pos (by simp [hv])]
        exact congrArg (fun r => v :: r) ih

/-- C7: the calibration stats depend only on the frames in which a face
was found — two calibration batches whose face-bearing subsequences agree
(that is, batches differing only by inserted or removed no-face frames)
produce identical mean/std pairs for all four features. -/
theorem calibrate_ignores_no_face_frames (l₁ l₂ : List (Option Feat))
    (h : l₁.filter (fun f => f.isSome) = l₂.filter (fun f => f.isSome)) :
    calibrate l₁ = calibrate l₂ := by
  unfold calibrate
  rw [validFeats_eq_filter_isSome l₁, validFeats_eq_filter_isSome l₂, h]

/-- Witness for `calibrate_ignores_no_face_frames`: surrounding a valid
frame with no-face frames leaves the stats unchanged. -/
theorem calibrate_ignores_no_face_frames_witness :
    calibrate [some (1,2,3,4)] =
      calibrate [none, some (1,2,3,4), none] :=
  calibrate_ignores_no_face_frames [some (1,2,3,4)]
    [none, some (1,2,3,4), none] rfl

/-- C3 counterexample: on a batch whose only frame has no face,
`calibrate` does not fail — it returns a stats tuple whose every mean and
standard deviation is NaN (numpy's mean/std of an empty array, embedded
as `none`). -/
theorem calibrate_all_sentinel_returns_nan :
    calibrate [none] = nanStats := by
  rfl

/-- C3 (amended): whenever zero frames of a calibration batch produce a
valid (non-sentinel) feature vector, `calibrate` returns normally with
all four mean/std pairs equal to NaN instead of signalling an
"insufficient calibration data" error. -/
theorem calibrate_no_valid_frames_nan (frames : List (Option Feat))
    (h : validFeats frames = []) : calibrate frames = nanStats := by
  unfold calibrate
  rw [h]
  rfl

/-- Witness for `calibrate_no_valid_frames_nan` on a two-frame all-no-face
batch. -/
theorem calibrate_no_valid_frames_nan_witness :
    calibrate [none, none] = nanStats :=
  calibrate_no_valid_frames_nan [none, none] rfl

/-- C8: `pupil_circularity` equals `(4*pi*area)/perimeter^2` with
`area = pi*(half the vertical eye-opening distance)^2` and `perimeter` the
8-segment polygon perimeter over the eye's four landmark-index pairs, and
`pupil_feature` (PUC) is the average of the left-eye and right-eye
circularities. -/
theorem pupil_circularity_matches_spec (l : Landmarks) (eye : IdxPairs) :
    pupil_circularity l eye =
      (4 * Real.pi * eyeAreaSpec l eye) / (eyePerimeter8 l eye) ^ 2 ∧
    pupil_feature l =
      (pupil_circularity l left_eye + pupil_circularity l right_eye) / 2 := by
  constructor
  · unfold pupil_circularity eyeAreaSpec verticalEyeOpening
    ring_nf
  · rfl

/-- C4 counterexample: constructing the fuzzy engine from an unreadable
rule-specification source is not a hard failure — construction succeeds
and the engine carries an empty rule base (`load_rules_from_json_file`
catches the IO error and returns `[]`). -/
theorem fuzzy_unreadable_source_constructs :
    fuzzyInferenceNew none = Except.ok ⟨[]⟩ := by
  rfl

/-- C4 (amended): engine construction never hard-fails on a loadable or
unreadable source: an unreadable source yields an engine with an empty
rule base, and a rule record lacking the reserved `result` key yields an
engine whose rule has the literal consequent term `None` instead of a
construction error. -/
theorem fuzzy_construction_never_fails :
    (∀ source : Option (List RuleDict),
      ∃ e : FuzzyEngine, fuzzyInferenceNew source = Except.ok e) ∧
    fuzzyInferenceNew none = Except.ok ⟨[]⟩ ∧
    fuzzyInferenceNew (some [[("speed", "hazardous")]]) =
      Except.ok ⟨["IF (speed IS hazardous) THEN (result IS None)"]⟩ := by
  refine ⟨fun source => ⟨fuzzy_init (load_rules_from_json_file source), rfl⟩,
          rfl, ?_⟩
  rfl

/-! ### Facts about the result-term membership functions -/

/-- Triangular memberships are nonnegative. -/
theorem triMF_nonneg {α : Type} [LinearOrderedField α] (p w x : α) :
    0 ≤ triMF p w x :=
  le_max_left 0 _

/-- Triangular memberships with positive half-width are at most one. -/
theorem triMF_le_one {α : Type} [LinearOrderedField α] (p w x : α)
    (hw : 0 < w) : triMF p w x ≤ 1 := by
  unfold triMF
  have h : 0 ≤ |x - p| / w := div_nonneg (abs_nonneg _) hw.le
  exact max_le (by norm_num) (by linarith)

/-- Result-term memberships are nonnegative. -/
theorem resultMF_nonneg (i : Fin 5) (x : ℝ) : 0 ≤ resultMF i x :=
  triMF_nonneg _ _ _

/-- Result-term memberships are at most one. -/
theorem resultMF_le_one (i : Fin 5) (x : ℝ) : resultMF i x ≤ 1 :=
  triMF_le_one _ _ _ (by norm_num)

/-- The peak of the first result term is 0. -/
theorem resultMF_zero (x : ℝ) : resultMF 0 x = triMF 0 (5/4) x := by
  unfold resultMF
  norm_num

/-- The peak of the second result term is 5/4. -/
theorem resultMF_one (x : ℝ) : resultMF 1 x = triMF (5/4) (5/4) x := by
  unfold resultMF
  norm_num [show ((1 : Fin 5) : ℕ) = 1 from rfl]

/-- The peak of the third result term is 5/2. -/
theorem resultMF_two (x : ℝ) : resultMF 2 x = triMF (5/2) (5/4) x := by
  unfold resultMF
  norm_num [show ((2 : Fin 5) : ℕ) = 2 from rfl]

/-- The peak of the fourth result term is 15/4. -/
theorem resultMF_three (x : ℝ) : resultMF 3 x = triMF (15/4) (5/4) x := by
  unfold resultMF
  norm_num [show ((3 : Fin 5) : ℕ) = 3 from rfl]

/-- The peak of the fifth result term is 5. -/
theorem resultMF_four (x : ℝ) : resultMF 4 x = triMF 5 (5/4) x := by
  unfold resultMF
  norm_num [show ((4 : Fin 5) : ℕ) = 4 from rfl]

/-- Value of a width-5/4 triangle inside its support. -/
theorem triMF_eval_in (p x : ℝ) (h : |x - p| ≤ 5/4) :
    triMF p (5/4) x = 1 - (4/5) * |x - p| := by
  unfold triMF
  have hd : |x - p| / (5/4) = (4/5) * |x - p| := by ring
  rw [hd, max_eq_right (by linarith)]

/-- Value of a width-5/4 triangle outside its support. -/
theorem triMF_eval_out (p x : ℝ) (h : 5/4 ≤ |x - p|) :
    triMF p (5/4) x = 0 := by
  unfold triMF
  have hd : |x - p| / (5/4) = (4/5) * |x - p| := by ring
  rw [hd, max_eq_left (by linarith)]

/-- At the two-peak activation profile the aggregated output membership
function collapses to the pointwise maximum of the two extreme terms. -/
theorem aggregatedResultMF_twoPeak (x : ℝ) :
    aggregatedResultMF twoPeakActivations x =
      max (resultMF 0 x) (resultMF 4 x) := by
  have hv0 : twoPeakActivations 0 = 1 := rfl
  have hv1 : twoPeakActivations 1 = 0 := rfl
  have hv2 : twoPeakActivations 2 = 0 := rfl
  have hv3 : twoPeakActivations 3 = 0 := rfl
  have hv4 : twoPeakActivations 4 = 1 := rfl
  unfold aggregatedResultMF
  rw [hv0, hv1, hv2, hv3, hv4,
      min_eq_right (resultMF_le_one 0 x), min_eq_right (resultMF_le_one 4 x),
      min_eq_left (resultMF_nonneg 1 x), min_eq_left (resultMF_nonneg 2 x),
      min_eq_left (resultMF_nonneg 3 x),
      max_eq_right (le_max_left 0 _), max_eq_right (le_max_left 0 _),
      max_eq_right (resultMF_nonneg 4 x)]

/-- On `[0, 5/4]` the two-peak aggregated function is the falling edge of
the first term. -/
theorem aggregated_twoPeak_left :
    Set.EqOn (aggregatedResultMF twoPeakActivations)
      (fun x => 1 - (4/5) * x) (Set.uIcc (0:ℝ) (5/4)) := by
  intro x hx
  rw [Set.uIcc_of_le (by norm_num : (0:ℝ) ≤ 5/4)] at hx
  obtain ⟨hx0, hx1⟩ := hx
  have e0 : resultMF (0 : Fin 5) x = 1 - (4/5) * x := by
    rw [resultMF_zero,
        triMF_eval_in 0 x (by rw [sub_zero, abs_of_nonneg hx0]; linarith),
        sub_zero, abs_of_nonneg hx0]
  have e4 : resultMF (4 : Fin 5) x = 0 := by
    rw [resultMF_four]
    exact triMF_eval_out 5 x (by rw [abs_of_nonpos (by linarith)]; linarith)
  show aggregatedResultMF twoPeakActivations x = 1 - (4/5) * x
  rw [aggregatedResultMF_twoPeak, e0, e4, max_eq_left (by linarith)]

/-- On `[5/4, 15/4]` the two-peak aggregated function vanishes. -/
theorem aggregated_twoPeak_mid :
    Set.EqOn (aggregatedResultMF twoPeakActivations)
      (fun _ => (0:ℝ)) (Set.uIcc (5/4:ℝ) (15/4)) := by
  intro x hx
  rw [Set.uIcc_of_le (by norm_num : (5/4:ℝ) ≤ 15/4)] at hx
  obtain ⟨hx0, hx1⟩ := hx
  have e0 : resultMF (0 : Fin 5) x = 0 := by
    rw [resultMF_zero]
    exact triMF_eval_out 0 x
      (by rw [sub_zero, abs_of_nonneg (by linarith)]; linarith)
  have e4 : resultMF (4 : Fin 5) x = 0 := by
    rw [resultMF_four]
    exact triMF_eval_out 5 x (by rw [abs_of_nonpos (by linarith)]; linarith)
  show aggregatedResultMF twoPeakActivations x = 0
  rw [aggregatedResultMF_twoPeak, e0, e4, max_self]

/-- On `[15/4, 5]` the two-peak aggregated function is the rising edge of
the last term. -/
theorem aggregated_twoPeak_right :
    Set.EqOn (aggregatedResultMF twoPeakActivations)
      (fun x => (4/5) * x - 3) (Set.uIcc (15/4:ℝ) 5) := by
  intro x hx
  rw [Set.uIcc_of_le (by norm_num : (15/4:ℝ) ≤ 5)] at hx
  obtain ⟨hx0, hx1⟩ := hx
  have e0 : resultMF (0 : Fin 5) x = 0 := by
    rw [resultMF_zero]
    exact triMF_eval_out 0 x
      (by rw [sub_zero, abs_of_nonneg (by linarith)]; linarith)
  have e4 : resultMF (4 : Fin 5) x = 1 - (4/5) * (-(x - 5)) := by
    rw [resultMF_four,
        triMF_eval_in 5 x (by rw [abs_of_nonpos (by linarith)]; linarith),
        abs_of_nonpos (by linarith)]
  show aggregatedResultMF twoPeakActivations x = (4/5) * x - 3
  rw [aggregatedResultMF_twoPeak, e0, e4, max_eq_right (by linarith)]
  ring

/-- Triangular membership functions are continuous. -/
theorem continuous_triMF (p w : ℝ) : Continuous (fun x => triMF p w x) := by
  unfold triMF
  exact continuous_const.max
    (continuous_const.sub (((continuous_id.sub continuous_const).abs).div_const w))

/-- The aggregated output membership function is continuous. -/
theorem continuous_aggregatedResultMF (a : Fin 5 → ℝ) :
    Continuous (aggregatedResultMF a) := by
  unfold aggregatedResultMF resultMF
  exact (continuous_const.min (continuous_triMF _ _)).max
    ((continuous_const.min (continuous_triMF _ _)).max
      ((continuous_const.min (continuous_triMF _ _)).max
        ((continuous_const.min (continuous_triMF _ _)).max
          (continuous_const.min (continuous_triMF _ _)))))

/-- The aggregated function is interval integrable on every interval. -/
theorem intervalIntegrable_agg (a : Fin 5 → ℝ) (u v : ℝ) :
    IntervalIntegrable (aggregatedResultMF a) MeasureTheory.volume u v :=
  (continuous_aggregatedResultMF a).intervalIntegrable u v

/-- The moment integrand of the aggregated function is interval
integrable on every interval. -/
theorem intervalIntegrable_x_agg (a : Fin 5 → ℝ) (u v : ℝ) :
    IntervalIntegrable (fun x => x * aggregatedResultMF a x)
      MeasureTheory.volume u v :=
  (continuous_id'.mul (continuous_aggregatedResultMF a)).intervalIntegrable u v

/-- The area under the two-peak aggregated function over `[0, 5/4]`. -/
theorem integral_agg_twoPeak_left :
    ∫ x in (0:ℝ)..(5/4), aggregatedResultMF twoPeakActivations x = 5/8 := by
  rw [intervalIntegral.integral_congr aggregated_twoPeak_left,
      intervalIntegral.integral_sub (continuous_const.intervalIntegrable _ _)
        ((continuous_const.mul continuous_id').intervalIntegrable _ _),
      intervalIntegral.integral_const, intervalIntegral.integral_const_mul,
      integral_id]
  norm_num

/-- The area under the two-peak aggregated function over `[5/4, 15/4]`. -/
theorem integral_agg_twoPeak_mid :
    ∫ x in (5/4:ℝ)..(15/4), aggregatedResultMF twoPeakActivations x = 0 := by
  rw [intervalIntegral.integral_congr aggregated_twoPeak_mid]
  simp

/-- The area under the two-peak aggregated function over `[15/4, 5]`. -/
theorem integral_agg_twoPeak_right :
    ∫ x in (15/4:ℝ)..5, aggregatedResultMF twoPeakActivations x = 5/8 := by
  rw [intervalIntegral.integral_congr aggregated_twoPeak_right,
      intervalIntegral.integral_sub
        ((continuous_const.mul continuous_id').intervalIntegrable _ _)
        (continuous_const.intervalIntegrable _ _),
      intervalIntegral.integral_const_mul, integral_id,
      intervalIntegral.integral_const]
  norm_num

/-- The total area under the two-peak aggregated function. -/
theorem integral_agg_twoPeak :
    ∫ x in (0:ℝ)..5, aggregatedResultMF twoPeakActivations x = 5/4 := by
  rw [← intervalIntegral.integral_add_adjacent_intervals
        (intervalIntegrable_agg twoPeakActivations 0 (15/4))
        (intervalIntegrable_agg twoPeakActivations (15/4) 5),
      ← intervalIntegral.integral_add_adjacent_intervals
        (intervalIntegrable_agg twoPeakActivations 0 (5/4))
        (intervalIntegrable_agg twoPeakActivations (5/4) (15/4)),
      integral_agg_twoPeak_left, integral_agg_twoPeak_mid,
      integral_agg_twoPeak_right]
  norm_num

/-- The first moment of the two-peak aggregated function over `[0, 5/4]`. -/
theorem integral_x_agg_twoPeak_left :
    ∫ x in (0:ℝ)..(5/4), x * aggregatedResultMF twoPeakActivations x
      = 25/96 := by
  have h : Set.EqOn (fun x => x * aggregatedResultMF twoPeakActivations x)
      (fun x : ℝ => x - (4/5) * x^2) (Set.uIcc (0:ℝ) (5/4)) := by
    intro x hx
    have hagg := aggregated_twoPeak_left hx
    simp only at hagg ⊢
    rw [hagg]
    ring
  rw [intervalIntegral.integral_congr h,
      intervalIntegral.integral_sub (continuous_id'.intervalIntegrable _ _)
        ((continuous_const.mul (continuous_pow 2)).intervalIntegrable _ _),
      integral_id, intervalIntegral.integral_const_mul, integral_pow]
  norm_num

/-- The first moment of the two-peak aggregated function over
`[5/4, 15/4]`. -/
theorem integral_x_agg_twoPeak_mid :
    ∫ x in (5/4:ℝ)..(15/4), x * aggregatedResultMF twoPeakActivations x
      = 0 := by
  have h : Set.EqOn (fun x => x * aggregatedResultMF twoPeakActivations x)
      (fun _ : ℝ => (0:ℝ)) (Set.uIcc (5/4:ℝ) (15/4)) := by
    intro x hx
    have hagg := aggregated_twoPeak_mid hx
    simp only at hagg ⊢
    rw [hagg]
    ring
  rw [intervalIntegral.integral_congr h]
  simp

/-- The first moment of the two-peak aggregated function over `[15/4, 5]`. -/
theorem integral_x_agg_twoPeak_right :
    ∫ x in (15/4:ℝ)..5, x * aggregatedResultMF twoPeakActivations x
      = 275/96 := by
  have h : Set.EqOn (fun x => x * aggregatedResultMF twoPeakActivations x)
      (fun x : ℝ => (4/5) * x^2 - 3 * x) (Set.uIcc (15/4:ℝ) 5) := by
    intro x hx
    have hagg := aggregated_twoPeak_right hx
    simp only at hagg ⊢
    rw [hagg]
    ring
  rw [intervalIntegral.integral_congr h,
      intervalIntegral.integral_sub
        ((continuous_const.mul (continuous_pow 2)).intervalIntegrable _ _)
        ((continuous_const.mul continuous_id').intervalIntegrable _ _),
      intervalIntegral.integral_const_mul, integral_pow,
      intervalIntegral.integral_const_mul, integral_id]
  norm_num

/-- The total first moment of the two-peak aggregated function. -/
theorem integral_x_agg_twoPeak :
    ∫ x in (0:ℝ)..5, x * aggregatedResultMF twoPeakActivations x
      = 25/8 := by
  rw [← intervalIntegral.integral_add_adjacent_intervals
        (intervalIntegrable_x_agg twoPeakActivations 0 (15/4))
        (intervalIntegrable_x_agg twoPeakActivations (15/4) 5),
      ← intervalIntegral.integral_add_adjacent_intervals
        (intervalIntegrable_x_agg twoPeakActivations 0 (5/4))
        (intervalIntegrable_x_agg twoPeakActivations (5/4) (15/4)),
      integral_x_agg_twoPeak_left, integral_x_agg_twoPeak_mid,
      integral_x_agg_twoPeak_right]
  norm_num

/-- The centroid of the two-peak aggregated output shape is the middle of
the output universe. -/
theorem mamdaniCrispResult_twoPeak :
    mamdaniCrispResult twoPeakActivations = 5/2 := by
  unfold mamdaniCrispResult
  rw [integral_agg_twoPeak, integral_x_agg_twoPeak]
  norm_num

/-- At the crisp value 5/2 the selection tail of `__call__` returns the
middle term `medium`, whose membership there is 1. -/
theorem fuzzyCall_center : fuzzyCall ((5:ℝ)/2) = some "medium" := by
  have e0 : resultMF (0 : Fin 5) ((5:ℝ)/2) = 0 := by
    rw [resultMF_zero]
    exact triMF_eval_out 0 (5/2)
      (by rw [sub_zero, abs_of_nonneg (by norm_num)]; norm_num)
  have e1 : resultMF (1 : Fin 5) ((5:ℝ)/2) = 0 := by
    rw [resultMF_one]
    exact triMF_eval_out (5/4) (5/2)
      (by rw [abs_of_nonneg (by norm_num)]; norm_num)
  have e2 : resultMF (2 : Fin 5) ((5:ℝ)/2) = 1 := by
    rw [resultMF_two, triMF_eval_in (5/2) (5/2) (by rw [sub_self, abs_zero]; norm_num),
        sub_self, abs_zero]
    norm_num
  have e3 : resultMF (3 : Fin 5) ((5:ℝ)/2) = 0 := by
    rw [resultMF_three]
    exact triMF_eval_out (15/4) (5/2)
      (by rw [abs_of_nonpos (by norm_num)]; norm_num)
  have e4 : resultMF (4 : Fin 5) ((5:ℝ)/2) = 0 := by
    rw [resultMF_four]
    exact triMF_eval_out 5 (5/2)
      (by rw [abs_of_nonpos (by norm_num)]; norm_num)
  unfold fuzzyCall resultGetValues
  rw [e0, e1, e2, e3, e4]
  unfold pyArgmax
  norm_num [List.foldl_cons, List.foldl_nil]

/-- At the crisp value 15/8 the terms `low` and `medium` tie at maximal
membership 1/2, and the selection tail of `__call__` returns the earlier
term `low`. -/
theorem fuzzyCall_tie : fuzzyCall ((15:ℝ)/8) = some "low" := by
  have e0 : resultMF (0 : Fin 5) ((15:ℝ)/8) = 0 := by
    rw [resultMF_zero]
    exact triMF_eval_out 0 (15/8)
      (by rw [sub_zero, abs_of_nonneg (by norm_num)]; norm_num)
  have e1 : resultMF (1 : Fin 5) ((15:ℝ)/8) = 1/2 := by
    rw [resultMF_one,
        triMF_eval_in (5/4) (15/8) (by rw [abs_of_nonneg (by norm_num)]; norm_num),
        abs_of_nonneg (by norm_num)]
    norm_num
  have e2 : resultMF (2 : Fin 5) ((15:ℝ)/8) = 1/2 := by
    rw [resultMF_two,
        triMF_eval_in (5/2) (15/8) (by rw [abs_of_nonpos (by norm_num)]; norm_num),
        abs_of_nonpos (by norm_num)]
    norm_num
  have e3 : resultMF (3 : Fin 5) ((15:ℝ)/8) = 0 := by
    rw [resultMF_three]
    exact triMF_eval_out (15/4) (15/8)
      (by rw [abs_of_nonpos (by norm_num)]; norm_num)
  have e4 : resultMF (4 : Fin 5) ((15:ℝ)/8) = 0 := by
    rw [resultMF_four]
    exact triMF_eval_out 5 (15/8)
      (by rw [abs_of_nonpos (by norm_num)]; norm_num)
  unfold fuzzyCall resultGetValues
  rw [e0, e1, e2, e3, e4]
  unfold pyArgmax
  norm_num [List.foldl_cons, List.foldl_nil]

/-- The arg-max over the two-peak activations themselves picks the first
fully-activated term, `very_low`. -/
theorem argmaxActivation_twoPeak :
    argmaxActivationCategory twoPeakActivations = some "very_low" := by
  have hv0 : twoPeakActivations 0 = 1 := rfl
  have hv1 : twoPeakActivations 1 = 0 := rfl
  have hv2 : twoPeakActivations 2 = 0 := rfl
  have hv3 : twoPeakActivations 3 = 0 := rfl
  have hv4 : twoPeakActivations 4 = 1 := rfl
  unfold argmaxActivationCategory
  rw [hv0, hv1, hv2, hv3, hv4]
  unfold pyArgmax
  norm_num [List.foldl_cons, List.foldl_nil]

/-- The fold of Python's `max(..., key=...)` returns an element of the
scanned list whose value component bounds every scanned value. -/
theorem foldl_pyStep_mem_and_max {α : Type} [LinearOrder α] :
    ∀ (xs : List (String × α)) (b : String × α),
      (xs.foldl (fun acc p => if acc.2 < p.2 then p else acc) b) ∈ b :: xs ∧
      ∀ q ∈ b :: xs,
        q.2 ≤ (xs.foldl (fun acc p => if acc.2 < p.2 then p else acc) b).2 := by
  intro xs
  induction xs with
  | nil =>
    intro b
    refine ⟨List.mem_cons_self _ _, ?_⟩
    intro q hq
    rw [List.mem_singleton] at hq
    rw [hq]
    exact le_rfl
  | cons x t ih =>
    intro b
    simp only [List.foldl_cons]
    obtain ⟨hmem, hmax⟩ := ih (if b.2 < x.2 then x else b)
    have hstep_le : (if b.2 < x.2 then x else b).2 ≤
        (t.foldl (fun acc p => if acc.2 < p.2 then p else acc)
          (if b.2 < x.2 then x else b)).2 :=
      hmax _ (List.mem_cons_self _ _)
    constructor
    · rcases List.mem_cons.1 hmem with h | h
      · rw [h]
        by_cases hbx : b.2 < x.2
        · rw [if_pos hbx]
          exact List.mem_cons_of_mem _ (List.mem_cons_self _ _)
        · rw [if_neg hbx]
          exact List.mem_cons_self _ _
      · exact List.mem_cons_of_mem _ (List.mem_cons_of_mem _ h)
    · intro q hq
      rcases List.mem_cons.1 hq with h | h
      · rw [h]
        refine le_trans ?_ hstep_le
        by_cases hbx : b.2 < x.2
        · rw [if_pos hbx]
          exact le_of_lt hbx
        · rw [if_neg hbx]
      · rcases List.mem_cons.1 h with h2 | h2
        · rw [h2]
          refine le_trans ?_ hstep_le
          by_cases hbx : b.2 < x.2
          · rw [if_pos hbx]
          · rw [if_neg hbx]
            exact le_of_not_lt hbx
        · exact hmax q (List.mem_cons_of_mem _ h2)

/-- C1 counterexample: when the rules fully activate both `very_low` and
`very_high` and nothing else, the library's centroid-defuzzified crisp
value is 5/2 and `__call__` returns `medium` — a term of aggregated
activation 0 — while the claim's arg-max over the aggregated activation
degrees (under any tie-break among the tied maximal terms, in enumeration
order it is `very_low`) can never be `medium`. -/
theorem fuzzy_category_not_activation_argmax :
    fuzzyEngineCategory twoPeakActivations = some "medium" ∧
    argmaxActivationCategory twoPeakActivations = some "very_low" ∧
    fuzzyEngineCategory twoPeakActivations ≠
      argmaxActivationCategory twoPeakActivations := by
  have h1 : fuzzyEngineCategory twoPeakActivations = some "medium" := by
    unfold fuzzyEngineCategory
    rw [mamdaniCrispResult_twoPeak]
    exact fuzzyCall_center
  refine ⟨h1, argmaxActivation_twoPeak, ?_⟩
  rw [h1, argmaxActivation_twoPeak]
  decide

/-- C1 (amended): the category returned by `FuzzyInference.__call__` is a
result term of maximal membership at the crisp value produced by the
library's centroid defuzzification — not the term of maximal aggregated
activation — and the selection is deterministic with ties at that level
broken towards the earlier term in the fixed order `very_low, low,
medium, high, very_high` (at the crisp value 15/8, where `low` and
`medium` tie at membership 1/2, the engine returns `low`). -/
theorem fuzzyCall_selects_max_membership :
    (∀ crisp : ℝ, ∃ p ∈ resultGetValues crisp,
      fuzzyCall crisp = some p.1 ∧
      ∀ q ∈ resultGetValues crisp, q.2 ≤ p.2) ∧
    fuzzyCall ((15:ℝ)/8) = some "low" := by
  constructor
  · intro crisp
    obtain ⟨hmem, hmax⟩ :=
      foldl_pyStep_mem_and_max
        [("low", resultMF 1 crisp), ("medium", resultMF 2 crisp),
         ("high", resultMF 3 crisp), ("very_high", resultMF 4 crisp)]
        ("very_low", resultMF 0 crisp)
    exact ⟨_, hmem, rfl, hmax⟩
  · exact fuzzyCall_tie

/-- Witness for `fuzzyCall_selects_max_membership`: its tie-break clause
evaluated at the concrete crisp value 15/8. -/
theorem fuzzyCall_selects_max_membership_witness :
    fuzzyCall ((15:ℝ)/8) = some "low" :=
  fuzzyCall_selects_max_membership.2

end FDMS
